import Mathlib

/-!
Verification of the pi-wellness-log analytics engine
(backend/app/routers/analytics.py and backend/app/routers/habits.py).

Shallow embedding conventions:
  * Calendar dates are day numbers in `ℤ`; `timedelta(days=k)` is `+ k` and
    `(today - entry.date).days` is integer subtraction.
  * Numeric metric values and pandas float columns are modelled as `ℚ`.
  * A pandas DataFrame with a `date` column and one value column is a
    `List (ℤ × ℚ)` in row order; a merged frame is a `List (ℤ × ℚ × ℚ)`
    of (date, reference value, completed value) rows.
  * `scipy.stats.pearsonr` is an external library call; the code treats it as
    a black box returning a `(correlation, p_value)` pair, so the embedding
    is parametrised by a function `pear : List ℚ → List ℚ → ℚ × ℚ`
    (first argument: the `completed` column, second: the metric column,
    matching every call site in analytics.py).
  * SQLAlchemy queries without `order_by` return rows in insertion order;
    a storage snapshot is therefore a triple of plain lists, and date-range
    filters preserve that order.
-/

set_option allowUnsafeReducibility true
attribute [local semireducible] Rat.add Rat.mul Rat.inv Rat.sub Rat.ofScientific

/-- A row of the `lifestyle_factors` table (fields used by the analytics code). -/
structure LifestyleFactor where
  id : ℕ
  name : String
deriving DecidableEq

/-- A row of the `lifestyle_factor_entries` table (fields used by analytics.py). -/
structure FactorEntry where
  lifestyle_factor_id : ℕ
  date : ℤ
  completed : Bool
deriving DecidableEq

/-- A row of the `wellbeing_metric_entries` table.  `mood_score` is declared
`nullable=False` in models.py, every other metric column is nullable. -/
structure WellbeingEntry where
  date : ℤ
  mood_score : ℚ
  energy_level : Option ℚ
  stress_level : Option ℚ
  anxiety_level : Option ℚ
  rumination_level : Option ℚ
  anger_level : Option ℚ
  general_health : Option ℚ
  sleep_quality : Option ℚ
  sweating_level : Option ℚ
  libido_level : Option ℚ
deriving DecidableEq

/-- schemas.CorrelationResult, field for field. -/
structure CorrelationResult where
  lifestyle_factor_name : String
  lifestyle_factor_id : ℕ
  metric_name : String
  correlation : ℚ
  p_value : ℚ
  significant : Bool
  sample_size : ℕ
deriving DecidableEq

/-- schemas.MetricCorrelationSummary, field for field. -/
structure MetricCorrelationSummary where
  metric_name : String
  metric_display_name : String
  correlations : List CorrelationResult
deriving DecidableEq

/-- The WELLBEING_METRICS registry of analytics.py as an insertion-ordered
(name, display_name) list.  The `higher_is_better` / `required` flags are
never read by the correlation code and are omitted. -/
def WELLBEING_METRICS : List (String × String) :=
  [("mood_score", "Mood Score"),
   ("energy_level", "Energy Level"),
   ("stress_level", "Stress Level"),
   ("anxiety_level", "Anxiety Level"),
   ("rumination_level", "Rumination Level"),
   ("anger_level", "Anger Level"),
   ("general_health", "General Health"),
   ("sleep_quality", "Sleep Quality"),
   ("sweating_level", "Sweating Level"),
   ("libido_level", "Libido Level")]

/-- `metric in WELLBEING_METRICS` (Python dict key membership). -/
def isValidMetric (m : String) : Bool :=
  (WELLBEING_METRICS.map Prod.fst).contains m

/-- `getattr(entry, metric_name, None)` for the fixed metric columns of
WellbeingMetricEntry; an unknown attribute name yields `None`. -/
def getMetric (en : WellbeingEntry) : String → Option ℚ
  | "mood_score" => some en.mood_score
  | "energy_level" => en.energy_level
  | "stress_level" => en.stress_level
  | "anxiety_level" => en.anxiety_level
  | "rumination_level" => en.rumination_level
  | "anger_level" => en.anger_level
  | "general_health" => en.general_health
  | "sleep_quality" => en.sleep_quality
  | "sweating_level" => en.sweating_level
  | "libido_level" => en.libido_level
  | _ => none

/-- Inclusive optional date-range test used by every endpoint's query filters
(`date >= start_date` / `date <= end_date`, each applied only when given). -/
def rangeOK (s e : Option ℤ) (d : ℤ) : Bool :=
  (match s with | none => true | some a => decide (a ≤ d)) &&
  (match e with | none => true | some b => decide (d ≤ b))

/-- Arithmetic mean of a column (pandas `mean`). -/
def listMean (l : List ℚ) : ℚ := l.sum / l.length

/-- pandas `nunique` of a column. -/
def nunique (l : List ℚ) : ℕ := l.dedup.length

/-- Sum of squared deviations from the mean.  For a column with at least two
rows, pandas `std() == 0` holds exactly when this sum is zero (the code only
consults `std` after the `nunique >= 2` guard, which forces length ≥ 2). -/
def varSum (l : List ℚ) : ℚ := (l.map (fun x => (x - listMean l) ^ 2)).sum

/-- Round half to even (the rounding Python's builtin `round` performs),
to integer. -/
def rhe (x : ℚ) : ℤ :=
  let f := ⌊x⌋
  if x - f < 1 / 2 then f
  else if x - f > 1 / 2 then f + 1
  else if f % 2 = 0 then f else f + 1

/-- Python `round(x, d)` on an exact rational. -/
def roundTo (d : ℕ) (x : ℚ) : ℚ := (rhe (x * 10 ^ d) : ℚ) / 10 ^ d

/-- `df.groupby("date").agg({col: "mean"}).reset_index()`: one row per unique
date, dates in ascending order, value = mean of that date's rows. -/
def groupMeanByDate (data : List (ℤ × ℚ)) : List (ℤ × ℚ) :=
  (List.insertionSort (· ≤ ·) (data.map Prod.fst).dedup).map
    (fun d => (d, listMean ((data.filter (fun q => q.1 == d)).map Prod.snd)))

/-- `pd.merge(primary, secondary, on="date", how="left")` followed by
`fillna(0)` on the secondary value column: every primary row is kept, each
matching secondary row (in order) produces one output row, and a primary row
with no match gets secondary value 0. -/
def leftMergeFill (primary secondary : List (ℤ × ℚ)) : List (ℤ × ℚ × ℚ) :=
  primary.flatMap (fun dv =>
    match secondary.filter (fun q => q.1 == dv.1) with
    | [] => [(dv.1, dv.2, 0)]
    | ms => ms.map (fun q => (dv.1, dv.2, q.2)))

/-- `pd.merge(primary, secondary, on="date", how="inner")`: only dates present
on both sides survive; row shape (date, bool(completed), metric value) as in
the data_points construction of analytics.py. -/
def innerMergePoints (primary secondary : List (ℤ × ℚ)) : List (ℤ × Bool × ℚ) :=
  primary.flatMap (fun dv =>
    (secondary.filter (fun q => q.1 == dv.1)).map
      (fun q => (dv.1, decide (q.2 ≠ 0), dv.2)))

/-- `df["date"] = df["date"] + timedelta(days=lag)` applied to a whole frame. -/
def shiftDates (lag : ℤ) (s : List (ℤ × ℚ)) : List (ℤ × ℚ) :=
  s.map (fun q => (q.1 + lag, q.2))

/-- Lag-`lag` alignment of a factor frame against a metric frame: shift the
secondary dates forward by `lag`, then left-merge with zero fill
(analytics.py lines 402–423 for lags 1 and 2, line 388 for lag 0). -/
def alignLag (lag : ℤ) (primary secondary : List (ℤ × ℚ)) : List (ℤ × ℚ × ℚ) :=
  leftMergeFill primary (shiftDates lag secondary)

/-- The per-factor completion frame: raw rows `(date, 1 if completed else 0)`,
one per entry — analytics.py builds this frame WITHOUT any groupby
(lines 84–87, 220–223, 379–382). -/
def factorDF (fes : List FactorEntry) : List (ℤ × ℚ) :=
  fes.map (fun en => (en.date, if en.completed then (1 : ℚ) else 0))

example : groupMeanByDate [(3, 4), (1, 2), (3, 6)] = [(1, 2), (3, 5)] := by decide
example : leftMergeFill [(1, 10), (2, 20)] [(2, 1), (2, 0)] =
    [(1, 10, 0), (2, 20, 1), (2, 20, 0)] := by decide
example : roundTo 3 (1 / 3) = 333 / 1000 := by decide
example : roundTo 3 (1 / 2000) = 0 := by decide
example : roundTo 3 (3 / 2000) = 2 / 1000 := by decide

/-- The correlation evaluation body shared verbatim by analytics.py lines
96–136 (legacy endpoint) and 234–274 (multi-metric sweep): minimum-sample
guard, `nunique < 2` guard, `std == 0` guard, the `pearsonr` call, the
range guard on the returned coefficient, then the rounded
`CorrelationResult`.  (The NaN/Inf guards of the source have no rational
counterpart: every `ℚ` is finite.) -/
def evaluateCorrelation (pear : List ℚ → List ℚ → ℚ × ℚ)
    (fname : String) (fid : ℕ) (mname : String) (minSamples : ℕ)
    (merged : List (ℤ × ℚ × ℚ)) : Option CorrelationResult :=
  let c := merged.map (fun r => r.2.2)
  let m := merged.map (fun r => r.2.1)
  if merged.length < minSamples then none
  else if nunique c < 2 || nunique m < 2 then none
  else if varSum c == 0 || varSum m == 0 then none
  else
    let rp := pear c m
    if rp.1 < -1 || 1 < rp.1 then none
    else some ⟨fname, fid, mname, roundTo 3 rp.1, roundTo 4 rp.2,
               decide (rp.2 < 1 / 20), merged.length⟩

/-- One (factor, metric) evaluation of the sweep: merge the metric frame with
the factor's raw completion frame (left join, zero fill) and evaluate. -/
def factorMetricResult (pear : List ℚ → List ℚ → ℚ × ℚ) (minSamples : ℕ)
    (f : LifestyleFactor) (fes : List FactorEntry) (mname : String)
    (mdf : List (ℤ × ℚ)) : Option CorrelationResult :=
  evaluateCorrelation pear f.name f.id mname minSamples
    (leftMergeFill mdf (factorDF fes))

/-- Descending-absolute-correlation order used by
`results.sort(key=lambda x: abs(x.correlation), reverse=True)`. -/
def absDescOrder (a b : CorrelationResult) : Prop :=
  |b.correlation| ≤ |a.correlation|

instance : DecidableRel absDescOrder :=
  fun a b => inferInstanceAs (Decidable (|b.correlation| ≤ |a.correlation|))

instance : IsTotal CorrelationResult absDescOrder :=
  ⟨fun a b => le_total |b.correlation| |a.correlation|⟩

instance : IsTrans CorrelationResult absDescOrder :=
  ⟨fun _ _ _ h1 h2 => le_trans h2 h1⟩

/-- Stable sort by descending absolute correlation. -/
def sortByAbsDesc (l : List CorrelationResult) : List CorrelationResult :=
  List.insertionSort absDescOrder l

/-- The date-range filtered wellbeing query shared by the endpoints. -/
def filterWellbeing (s e : Option ℤ) (l : List WellbeingEntry) : List WellbeingEntry :=
  l.filter (fun en => rangeOK s e en.date)

/-- The per-factor entry query: filter by factor id and date range. -/
def entriesOfFactor (fentries : List FactorEntry) (s e : Option ℤ) (fid : ℕ) :
    List FactorEntry :=
  fentries.filter (fun en => en.lifestyle_factor_id == fid && rangeOK s e en.date)

/-- The daily mood frame of the legacy endpoint (lines 58–64): every wellbeing
entry contributes its (non-nullable) mood_score, then group-mean by date. -/
def moodDF (wb : List WellbeingEntry) : List (ℤ × ℚ) :=
  groupMeanByDate (wb.map (fun en => (en.date, en.mood_score)))

/-- GET /correlations (legacy endpoint, analytics.py lines 27–141). -/
def legacyCorrelations (pear : List ℚ → List ℚ → ℚ × ℚ)
    (factors : List LifestyleFactor) (fentries : List FactorEntry)
    (wentries : List WellbeingEntry) (s e : Option ℤ) (minSamples : ℕ) :
    List CorrelationResult :=
  if factors.isEmpty then []
  else
    let wb := filterWellbeing s e wentries
    if wb.isEmpty then []
    else
      let mdf := moodDF wb
      let results := factors.filterMap (fun f =>
        let fes := entriesOfFactor fentries s e f.id
        if fes.isEmpty then none
        else factorMetricResult pear minSamples f fes "mood_score" mdf)
      sortByAbsDesc results

/-- Line 183: `{metric: WELLBEING_METRICS[metric]} if metric and metric in
WELLBEING_METRICS else WELLBEING_METRICS`.  An absent, empty or UNKNOWN
metric name silently selects the full registry. -/
def metricsToAnalyze (metric : Option String) : List (String × String) :=
  match metric with
  | some m =>
      if m != "" && isValidMetric m then WELLBEING_METRICS.filter (fun p => p.1 == m)
      else WELLBEING_METRICS
  | none => WELLBEING_METRICS

/-- Lines 185–198: one grouped daily frame per metric that has at least one
non-null value among the filtered wellbeing entries. -/
def metricDFs (wb : List WellbeingEntry) (mta : List (String × String)) :
    List (String × List (ℤ × ℚ)) :=
  mta.filterMap (fun p =>
    let data := wb.filterMap (fun en => (getMetric en p.1).map (fun v => (en.date, v)))
    if data.isEmpty then none else some (p.1, groupMeanByDate data))

/-- The `all_correlations` accumulator of the sweep (lines 200–277): factors
in query order, metrics in `metric_dataframes` order within each factor;
factors without entries contribute nothing. -/
def sweepAllCorrelations (pear : List ℚ → List ℚ → ℚ × ℚ)
    (factors : List LifestyleFactor) (fentries : List FactorEntry)
    (wentries : List WellbeingEntry)
    (s e : Option ℤ) (minSamples : ℕ) (metric : Option String) :
    List CorrelationResult :=
  let wb := filterWellbeing s e wentries
  let mdfs := metricDFs wb (metricsToAnalyze metric)
  (factors.map (fun f =>
    let fes := entriesOfFactor fentries s e f.id
    if fes.isEmpty then []
    else mdfs.filterMap (fun p => factorMetricResult pear minSamples f fes p.1 p.2))).flatten

/-- The `by_lifestyle_factor` mapping (insertion-ordered association list):
only factors with at least one successful result appear. -/
def byLifestyleFactor (pear : List ℚ → List ℚ → ℚ × ℚ)
    (factors : List LifestyleFactor) (fentries : List FactorEntry)
    (wentries : List WellbeingEntry)
    (s e : Option ℤ) (minSamples : ℕ) (metric : Option String) :
    List (ℕ × List CorrelationResult) :=
  let wb := filterWellbeing s e wentries
  let mdfs := metricDFs wb (metricsToAnalyze metric)
  factors.filterMap (fun f =>
    let fes := entriesOfFactor fentries s e f.id
    if fes.isEmpty then none
    else
      let rs := mdfs.filterMap (fun p => factorMetricResult pear minSamples f fes p.1 p.2)
      if rs.isEmpty then none else some (f.id, rs))

/-- The `by_metric` grouping (lines 282–294): loop over `metrics_to_analyze`,
filter the accumulator to that metric, sort by descending absolute
correlation, and emit a summary only when nonempty. -/
def byMetricGroups (mta : List (String × String)) (acs : List CorrelationResult) :
    List MetricCorrelationSummary :=
  mta.filterMap (fun p =>
    let mc := sortByAbsDesc (acs.filter (fun c => c.metric_name == p.1))
    if mc.isEmpty then none else some ⟨p.1, p.2, mc⟩)

/-- GET /correlations/multi-metric (analytics.py lines 144–296). -/
def multiMetric (pear : List ℚ → List ℚ → ℚ × ℚ)
    (factors : List LifestyleFactor) (fentries : List FactorEntry)
    (wentries : List WellbeingEntry)
    (s e : Option ℤ) (minSamples : ℕ) (metric : Option String) :
    List MetricCorrelationSummary × List (ℕ × List CorrelationResult) :=
  if factors.isEmpty then ([], [])
  else if (filterWellbeing s e wentries).isEmpty then ([], [])
  else
    (byMetricGroups (metricsToAnalyze metric)
       (sweepAllCorrelations pear factors fentries wentries s e minSamples metric),
     byLifestyleFactor pear factors fentries wentries s e minSamples metric)

/-- One of the three lag blocks of GET /correlations/{id}
(analytics.py lines 387–434): merge at the given lag, then — under the
`len >= 5 and nunique >= 2 and nunique >= 2` guard of that endpoint — call
`pearsonr` and emit rounded correlation, p-value and sample count.  (This
endpoint has no `std` guard and no range guard, unlike the sweep.) -/
def lagSlotEval (pear : List ℚ → List ℚ → ℚ × ℚ)
    (mdf fdf : List (ℤ × ℚ)) (lag : ℤ) : Option (ℚ × ℚ × ℕ) :=
  let merged := alignLag lag mdf fdf
  let c := merged.map (fun r => r.2.2)
  let m := merged.map (fun r => r.2.1)
  if 5 ≤ merged.length && 2 ≤ nunique c && 2 ≤ nunique m then
    let rp := pear c m
    some (roundTo 3 rp.1, roundTo 4 rp.2, merged.length)
  else none

/-- The response of GET /correlations/{lifestyle_factor_id}: the three lag
slots (absent dict key and explicit `None` both model as `none`) and the
raw inner-join data points. -/
structure LagProfileResult where
  same_day : Option (ℚ × ℚ × ℕ)
  next_day : Option (ℚ × ℚ × ℕ)
  two_days : Option (ℚ × ℚ × ℕ)
  data_points : List (ℤ × Bool × ℚ)
deriving DecidableEq

/-- GET /correlations/{lifestyle_factor_id} (analytics.py lines 298–453),
after the 404/400 identifier and metric-name checks have passed: builds the
metric and factor frames, computes the three lag correlations and the
inner-join data points, short-circuiting to an all-null result when the
wellbeing history, the factor history, or the metric's non-null history is
empty. -/
def lagProfile (pear : List ℚ → List ℚ → ℚ × ℚ)
    (wentries : List WellbeingEntry) (fentries : List FactorEntry)
    (mname : String) (s e : Option ℤ) : LagProfileResult :=
  let wb := filterWellbeing s e wentries
  let fes := fentries.filter (fun en => rangeOK s e en.date)
  if wb.isEmpty || fes.isEmpty then ⟨none, none, none, []⟩
  else
    let metricData := wb.filterMap (fun en => (getMetric en mname).map (fun v => (en.date, v)))
    if metricData.isEmpty then ⟨none, none, none, []⟩
    else
      let mdf := groupMeanByDate metricData
      let fdf := factorDF fes
      ⟨lagSlotEval pear mdf fdf 0,
       lagSlotEval pear mdf fdf 1,
       lagSlotEval pear mdf fdf 2,
       innerMergePoints mdf fdf⟩

/-- The metric-name validation of GET /correlations/{id} (lines 320–325):
a falsy metric parameter defaults to "mood_score", and a name outside
WELLBEING_METRICS raises HTTP 400 before any computation. -/
def lagMetricCheck (metric : Option String) : Except String String :=
  let m := match metric with
           | none => "mood_score"
           | some s => if s = "" then "mood_score" else s
  if isValidMetric m then Except.ok m
  else Except.error (String.append "Invalid metric: " m)

/-- A habit entry as used by get_habit_stats (habits.py): date and completion. -/
structure HEntry where
  date : ℤ
  completed : Bool
deriving DecidableEq

instance : DecidableRel (fun a b : HEntry => a.date ≤ b.date) :=
  fun a b => Int.decLe a.date b.date

/-- `sorted(entries, key=lambda x: x.date)` (stable ascending sort). -/
def sortByDate (l : List HEntry) : List HEntry :=
  List.insertionSort (fun a b => a.date ≤ b.date) l

/-- The longest-streak fold of habits.py lines 166–179: one pass over the
date-sorted entries with a running streak that resets on an incomplete
entry, taking a max after each completed one. -/
def longestStreakFold (l : List Bool) : ℕ :=
  (l.foldl (fun (p : ℕ × ℕ) b =>
      if b then (max p.1 (p.2 + 1), p.2 + 1) else (p.1, 0)) (0, 0)).1

/-- The current-streak walk of habits.py lines 181–189, over the REVERSED
date-sorted entries: entries dated after today are skipped (`continue`);
a completed entry whose age `today - entry.date` is at most `n`
(`len(sorted_entries)`) counts; anything else stops the walk. -/
def currentStreakWalk (today : ℤ) (n : ℕ) : List HEntry → ℕ
  | [] => 0
  | en :: rest =>
      if today < en.date then currentStreakWalk today n rest
      else if en.completed && decide (today - en.date ≤ (n : ℤ)) then
        currentStreakWalk today n rest + 1
      else 0

/-- schemas.HabitStats, field for field. -/
structure HabitStats where
  habit_id : ℕ
  habit_name : String
  total_days : ℕ
  completed_days : ℕ
  completion_rate : ℚ
  current_streak : ℕ
  longest_streak : ℕ
deriving DecidableEq

/-- get_habit_stats (habits.py lines 139–199) for an existing habit, with the
reference date `today` (`date.today()` in the source) made explicit. -/
def habitStats (hid : ℕ) (hname : String) (entries : List HEntry) (today : ℤ) :
    HabitStats :=
  if entries.isEmpty then ⟨hid, hname, 0, 0, 0, 0, 0⟩
  else
    let total := entries.length
    let completed := (entries.filter (fun en => en.completed)).length
    let rate := roundTo 2 ((completed : ℚ) / (total : ℚ) * 100)
    let sorted := sortByDate entries
    ⟨hid, hname, total, completed, rate,
     currentStreakWalk today entries.length sorted.reverse,
     longestStreakFold (sorted.map (fun en => en.completed))⟩

example : longestStreakFold [true, true, true, false, true, true] = 3 := by decide
example : currentStreakWalk 10 3 [⟨11, true⟩, ⟨10, true⟩, ⟨9, true⟩] = 2 := by decide

/-- The walk claim C6 describes, transcribed from its wording: skip
future-dated entries, count consecutive completed entries, stop ONLY at the
first incomplete entry.  Defined solely for comparison with the code's
`currentStreakWalk`. -/
def currentStreakClaimed (today : ℤ) : List HEntry → ℕ
  | [] => 0
  | en :: rest =>
      if today < en.date then currentStreakClaimed today rest
      else if en.completed then currentStreakClaimed today rest + 1
      else 0

/-- Proof helper for the streak fold: the largest `true`-run value reachable
when the current run already has length `t`. -/
def runTally : ℕ → List Bool → ℕ
  | t, [] => t
  | t, true :: xs => runTally (t + 1) xs
  | t, false :: xs => max t (runTally 0 xs)

/-- Claim C2: for every primary (metric) daily series, secondary (factor)
daily series and lag, the alignment shifts every secondary date forward by
exactly `lag` days (a nonzero joined completion value at date d comes from a
secondary entry at date d - lag), left-joins on the primary dates keeping
every primary date, and fills absent secondary values with 0.0; concretely,
at lag 1 a completion dated day 5 reaches only the metric value of day 6. -/
theorem c2_lag_alignment (p s : List (ℤ × ℚ)) (lag : ℤ) :
    (∀ dv ∈ p, ∃ c, (dv.1, dv.2, c) ∈ alignLag lag p s) ∧
    (∀ r ∈ alignLag lag p s, (r.1, r.2.1) ∈ p) ∧
    (∀ r ∈ alignLag lag p s, r.2.2 = 0 ∨ (r.1 - lag, r.2.2) ∈ s) ∧
    (∀ dv ∈ p, s.filter (fun q => q.1 + lag == dv.1) = [] →
       (dv.1, dv.2, (0 : ℚ)) ∈ alignLag lag p s) ∧
    alignLag 1 [(4, 2), (5, 3), (6, 4), (7, 5)] [(5, 1)] =
      [(4, 2, 0), (5, 3, 0), (6, 4, 1), (7, 5, 0)] := by
  refine ⟨?_, ?_, ?_, ?_, by decide⟩
  · intro dv hdv
    rw [alignLag, leftMergeFill]
    rcases h : (shiftDates lag s).filter (fun q => q.1 == dv.1) with _ | ⟨q, t⟩
    · exact ⟨0, List.mem_flatMap.2 ⟨dv, hdv, by rw [h]; exact List.mem_singleton_self _⟩⟩
    · refine ⟨q.2, List.mem_flatMap.2 ⟨dv, hdv, ?_⟩⟩
      rw [h]
      exact List.mem_map.2 ⟨q, List.mem_cons_self _ _, rfl⟩
  · intro r hr
    rw [alignLag, leftMergeFill] at hr
    obtain ⟨dv, hdv, hin⟩ := List.mem_flatMap.1 hr
    rcases h : (shiftDates lag s).filter (fun q => q.1 == dv.1) with _ | ⟨q, t⟩ <;>
      rw [h] at hin
    · simp only [List.mem_singleton] at hin
      subst hin; exact hdv
    · obtain ⟨q', _, hq'⟩ := List.mem_map.1 hin
      subst hq'; exact hdv
  · intro r hr
    rw [alignLag, leftMergeFill] at hr
    obtain ⟨dv, hdv, hin⟩ := List.mem_flatMap.1 hr
    rcases h : (shiftDates lag s).filter (fun q => q.1 == dv.1) with _ | ⟨q, t⟩ <;>
      rw [h] at hin
    · simp only [List.mem_singleton] at hin
      subst hin; exact Or.inl rfl
    · obtain ⟨q', hq'mem, hq'⟩ := List.mem_map.1 hin
      subst hq'
      right
      have hq'filter : q' ∈ (shiftDates lag s).filter (fun q => q.1 == dv.1) := by
        rw [h]; exact hq'mem
      have := List.mem_filter.1 hq'filter
      obtain ⟨hmem, heq⟩ := this
      obtain ⟨orig, horig, horigeq⟩ := List.mem_map.1 hmem
      have hdate : q'.1 = dv.1 := by simpa using heq
      have hq1 : q'.1 = orig.1 + lag := by rw [← horigeq]
      have h2 : q'.2 = orig.2 := by rw [← horigeq]
      have h1 : dv.1 - lag = orig.1 := by omega
      have hpair : (dv.1 - lag, q'.2) = orig := by rw [h1, h2]
      exact hpair ▸ horig
  · intro dv hdv hfilt
    rw [alignLag, leftMergeFill]
    have : (shiftDates lag s).filter (fun q => q.1 == dv.1) = [] := by
      rw [shiftDates, List.filter_map]
      have : ((fun q : ℤ × ℚ => q.1 == dv.1) ∘ fun q : ℤ × ℚ => (q.1 + lag, q.2)) =
          (fun q : ℤ × ℚ => q.1 + lag == dv.1) := rfl
      rw [this, hfilt, List.map_nil]
    refine List.mem_flatMap.2 ⟨dv, hdv, ?_⟩
    rw [this]
    exact List.mem_singleton_self _

/-- Witness for c2_lag_alignment: the fill conjunct applied at a concrete
input (secondary date 7 shifts to 8, never matches primary date 5, so the
joined row is (5, 3, 0)). -/
theorem c2_lag_alignment_witness :
    ((5 : ℤ), (3 : ℚ), (0 : ℚ)) ∈ alignLag 1 [((5 : ℤ), (3 : ℚ))] [((7 : ℤ), (1 : ℚ))] :=
  (c2_lag_alignment [(5, 3)] [(7, 1)] 1).2.2.2.1 (5, 3) (by decide) (by decide)

/-- Claim C3: whenever the aligned table is below the minimum-sample
threshold, or either column has fewer than 2 distinct values, or either
column has zero standard deviation, the evaluator yields no result (`none`)
— degeneracy is signalled by omission, and the evaluator is a total
function, so no error can abort a sweep. -/
theorem c3_degenerate_guards (pear : List ℚ → List ℚ → ℚ × ℚ)
    (fname : String) (fid : ℕ) (mname : String) (minSamples : ℕ)
    (merged : List (ℤ × ℚ × ℚ))
    (h : merged.length < minSamples ∨
         nunique (merged.map (fun r => r.2.2)) < 2 ∨
         nunique (merged.map (fun r => r.2.1)) < 2 ∨
         varSum (merged.map (fun r => r.2.2)) = 0 ∨
         varSum (merged.map (fun r => r.2.1)) = 0) :
    evaluateCorrelation pear fname fid mname minSamples merged = none := by
  simp only [evaluateCorrelation]
  split_ifs with h1 h2 h3 h4
  · rfl
  · rfl
  · rfl
  · rfl
  · exfalso
    simp only [Bool.or_eq_true, decide_eq_true_eq, not_or] at h2
    simp only [Bool.or_eq_true, beq_iff_eq, not_or] at h3
    rcases h with h | h | h | h | h
    · exact h1 h
    · exact h2.1 h
    · exact h2.2 h
    · exact h3.1 h
    · exact h3.2 h

/-- Witness for c3_degenerate_guards: the empty aligned table with the
default threshold 7 produces no result. -/
theorem c3_degenerate_guards_witness :
    evaluateCorrelation (fun _ _ => (1, 1)) "f" 1 "mood_score" 7 [] = none :=
  c3_degenerate_guards _ "f" 1 "mood_score" 7 [] (Or.inl (by decide))

/-- Claim C8: when every guard passes, the emitted CorrelationResult carries
the coefficient rounded to 3 decimals, the p-value rounded to 4 decimals,
a significance flag equal to (p-value < 0.05), and sample size equal to the
aligned table's row count. -/
theorem c8_result_shape (pear : List ℚ → List ℚ → ℚ × ℚ)
    (fname : String) (fid : ℕ) (mname : String) (minSamples : ℕ)
    (merged : List (ℤ × ℚ × ℚ)) (c m : List ℚ) (rp : ℚ × ℚ)
    (hc : c = merged.map (fun r => r.2.2)) (hm : m = merged.map (fun r => r.2.1))
    (hrp : rp = pear c m)
    (h1 : minSamples ≤ merged.length) (h2 : 2 ≤ nunique c) (h3 : 2 ≤ nunique m)
    (h4 : varSum c ≠ 0) (h5 : varSum m ≠ 0) (h6 : -1 ≤ rp.1) (h7 : rp.1 ≤ 1) :
    evaluateCorrelation pear fname fid mname minSamples merged =
      some ⟨fname, fid, mname, roundTo 3 rp.1, roundTo 4 rp.2,
            decide (rp.2 < 1 / 20), merged.length⟩ ∧
    (decide (rp.2 < 1 / 20) = true ↔ rp.2 < 1 / 20) := by
  subst hc hm hrp
  constructor
  · simp only [evaluateCorrelation]
    split_ifs with g1 g2 g3 g4
    · omega
    · simp only [Bool.or_eq_true, decide_eq_true_eq] at g2
      rcases g2 with g | g <;> omega
    · simp only [Bool.or_eq_true, beq_iff_eq] at g3
      rcases g3 with g | g <;> [exact absurd g h4; exact absurd g h5]
    · simp only [Bool.or_eq_true, decide_eq_true_eq] at g4
      rcases g4 with g | g <;> linarith
    · rfl
  · exact decide_eq_true_iff

/-- Witness for c8_result_shape: a concrete 3-row aligned table with
pearsonr modelled as returning (1/3, 1/30); the p-value 1/30 is below 0.05,
so the emitted result is flagged significant and carries rounded values and
sample size 3. -/
theorem c8_result_shape_witness :
    evaluateCorrelation (fun _ _ => ((1 : ℚ) / 3, (1 : ℚ) / 30)) "f" 1 "mood_score" 3
        [(1, 1, 1), (2, 2, 0), (3, 3, 0)] =
      some ⟨"f", 1, "mood_score", roundTo 3 ((1 : ℚ) / 3), roundTo 4 ((1 : ℚ) / 30),
            true, 3⟩ ∧
    (decide ((1 : ℚ) / 30 < 1 / 20) = true ↔ (1 : ℚ) / 30 < 1 / 20) :=
  c8_result_shape (fun _ _ => ((1 : ℚ) / 3, (1 : ℚ) / 30)) "f" 1 "mood_score" 3
    [(1, 1, 1), (2, 2, 0), (3, 3, 0)]
    [1, 0, 0] [1, 2, 3] ((1 : ℚ) / 3, (1 : ℚ) / 30) rfl rfl rfl
    (by decide) (by decide) (by decide) (by decide) (by decide) (by decide) (by decide)

/-- Claim C1 (amended): the metric series is aggregated to one mean value
per unique date, but behavioral-factor entries are NOT aggregated before the
join — every joined completion value is exactly 0 or 1 (one row per
duplicate entry), never a fractional same-day mean. -/
theorem c1_amended_aggregation (m data : List (ℤ × ℚ)) (fs : List FactorEntry) :
    (∀ r ∈ groupMeanByDate data,
        r.2 = listMean ((data.filter (fun q => q.1 == r.1)).map Prod.snd)) ∧
    ((groupMeanByDate data).map Prod.fst).Nodup ∧
    (∀ r ∈ leftMergeFill m (factorDF fs), r.2.2 = 0 ∨ r.2.2 = 1) := by
  refine ⟨?_, ?_, ?_⟩
  · intro r hr
    obtain ⟨d, _, hd⟩ := List.mem_map.1 hr
    subst hd
    rfl
  · rw [groupMeanByDate, List.map_map]
    have : (Prod.fst ∘ fun d : ℤ =>
        (d, listMean ((data.filter (fun q => q.1 == d)).map Prod.snd))) = id := rfl
    rw [this, List.map_id]
    exact ((List.perm_insertionSort _ _).nodup_iff).2 (List.nodup_dedup _)
  · intro r hr
    obtain ⟨dv, _, hin⟩ := List.mem_flatMap.1 hr
    rcases h : (factorDF fs).filter (fun q => q.1 == dv.1) with _ | ⟨q, t⟩ <;>
      rw [h] at hin
    · simp only [List.mem_singleton] at hin
      subst hin
      exact Or.inl rfl
    · obtain ⟨q', hq'mem, hq'⟩ := List.mem_map.1 hin
      subst hq'
      have hq'filter : q' ∈ (factorDF fs).filter (fun q => q.1 == dv.1) := by
        rw [h]; exact hq'mem
      obtain ⟨hmem, _⟩ := List.mem_filter.1 hq'filter
      obtain ⟨en, _, heneq⟩ := List.mem_map.1 hmem
      subst heneq
      by_cases hcomp : en.completed <;> simp [hcomp]

/-- Witness for c1_amended_aggregation: the no-aggregation conjunct applied
to the joined row (5, 3, 1) of a duplicate-entry day. -/
theorem c1_amended_aggregation_witness :
    (1 : ℚ) = 0 ∨ (1 : ℚ) = 1 :=
  (c1_amended_aggregation [((5 : ℤ), (3 : ℚ))] []
      [⟨1, 5, true⟩, ⟨1, 5, false⟩]).2.2 (5, 3, 1) (by decide)

/-- Counterexample to claim C1 as stated: with one metric row on day 5 and
two same-day factor entries (one completed, one not), the joined table has
TWO rows for day 5 carrying 1.0 and 0.0 — no single 0.5 row is produced. -/
theorem c1_counterexample :
    leftMergeFill [((5 : ℤ), (3 : ℚ))] (factorDF [⟨1, 5, true⟩, ⟨1, 5, false⟩]) =
      [(5, 3, 1), (5, 3, 0)] ∧
    ¬ ((1 : ℚ) / 2 ∈ (leftMergeFill [((5 : ℤ), (3 : ℚ))]
        (factorDF [⟨1, 5, true⟩, ⟨1, 5, false⟩])).map (fun r => r.2.2)) := by
  decide

/-- Claim C4 (amended): the per-factor lag-profile endpoint rejects a
non-empty metric name outside WELLBEING_METRICS with an HTTP 400 before any
computation, but the multi-metric sweep does NOT reject it — the unknown
metric filter is silently ignored and the full metric registry is analyzed. -/
theorem c4_amended_metric_validation (m : String) (h0 : m ≠ "")
    (h : isValidMetric m = false) :
    metricsToAnalyze (some m) = WELLBEING_METRICS ∧
    lagMetricCheck (some m) = Except.error (String.append "Invalid metric: " m) := by
  constructor
  · simp [metricsToAnalyze, h]
  · simp [lagMetricCheck, h0, h]

/-- Witness for c4_amended_metric_validation at the unknown name "bogus". -/
theorem c4_amended_metric_validation_witness :
    metricsToAnalyze (some "bogus") = WELLBEING_METRICS ∧
    lagMetricCheck (some "bogus") = Except.error (String.append "Invalid metric: " "bogus") :=
  c4_amended_metric_validation "bogus" (by decide) (by decide)

/-- Counterexample to claim C4 as stated: a sweep request naming the unknown
metric "bogus" is not rejected — the filter falls back to the full registry
and the correlation computation runs to completion, here producing a
mood_score group with one result. -/
theorem c4_counterexample :
    metricsToAnalyze (some "bogus") = WELLBEING_METRICS ∧
    (multiMetric (fun _ _ => ((1 : ℚ) / 2, (1 : ℚ) / 100)) [⟨1, "f"⟩] [⟨1, 1, true⟩]
        [⟨1, 1, none, none, none, none, none, none, none, none, none⟩,
         ⟨2, 2, none, none, none, none, none, none, none, none, none⟩,
         ⟨3, 3, none, none, none, none, none, none, none, none, none⟩]
        none none 3 (some "bogus")).1.map
      (fun summ => (summ.metric_name, summ.correlations.length)) = [("mood_score", 1)] := by
  decide

/-- The current-streak walk equals the length of the initial block of the
past-or-today entries (in reverse date order) that are completed AND at most
`n` days old. -/
theorem currentStreakWalk_eq_takeWhile (today : ℤ) (n : ℕ) (l : List HEntry) :
    currentStreakWalk today n l =
      ((l.filter (fun en => decide (en.date ≤ today))).takeWhile
        (fun en => en.completed && decide (today - en.date ≤ (n : ℤ)))).length := by
  induction l with
  | nil => rfl
  | cons en rest ih =>
    simp only [currentStreakWalk, List.filter_cons]
    by_cases h1 : today < en.date
    · have hd : decide (en.date ≤ today) = false := decide_eq_false (by omega)
      simp [h1, hd, ih]
    · have hd : decide (en.date ≤ today) = true := decide_eq_true (by omega)
      by_cases h2 : (en.completed && decide (today - en.date ≤ (n : ℤ))) = true
      · simp [h1, hd, h2, List.takeWhile_cons, ih]
        split_ifs <;> simp_all
      · simp [h1, hd, h2, List.takeWhile_cons]
        split_ifs <;> simp_all

/-- Claim C6 (amended): the current streak counts backward from the most
recent entry dated on or before today, skipping entries dated after today
without breaking, and counting consecutive entries that are completed AND
whose age `today - date` is at most the total number of entries; a completed
entry older than that stops the walk exactly like an incomplete one. -/
theorem c6_amended_current_streak (hid : ℕ) (hname : String)
    (entries : List HEntry) (today : ℤ) :
    (habitStats hid hname entries today).current_streak =
      (((sortByDate entries).reverse.filter (fun en => decide (en.date ≤ today))).takeWhile
        (fun en => en.completed &&
          decide (today - en.date ≤ (entries.length : ℤ)))).length := by
  by_cases h : entries.isEmpty
  · have : entries = [] := List.isEmpty_iff.1 h
    subst this
    rfl
  · simp only [habitStats, h, if_false]
    exact currentStreakWalk_eq_takeWhile today entries.length (sortByDate entries).reverse

/-- Counterexample to claim C6 as stated: a single completed entry two days
old (today = 10, entry date 8).  The claim's walk stops only at an
incomplete entry, so it counts 1; the code additionally requires the age
`today - date = 2` to be at most `len(entries) = 1`, so it reports 0. -/
theorem c6_counterexample :
    (habitStats 1 "h" [⟨8, true⟩] 10).current_streak = 0 ∧
    currentStreakClaimed 10 (sortByDate [⟨8, true⟩]).reverse = 1 := by
  decide

theorem le_runTally (l : List Bool) : ∀ t, t ≤ runTally t l := by
  induction l with
  | nil => intro t; exact Nat.le_refl t
  | cons b xs ih =>
    intro t
    cases b
    · exact Nat.le_max_left _ _
    · exact Nat.le_trans (Nat.le_succ t) (ih (t + 1))

theorem foldl_streak (l : List Bool) : ∀ a t, t ≤ a →
    (l.foldl (fun (p : ℕ × ℕ) b =>
        if b then (max p.1 (p.2 + 1), p.2 + 1) else (p.1, 0)) (a, t)).1
      = max a (runTally t l) := by
  induction l with
  | nil => intro a t h; simp only [List.foldl_nil, runTally]; omega
  | cons b xs ih =>
    intro a t h
    cases b
    · simp only [List.foldl_cons, if_false, Bool.false_eq_true, runTally]
      rw [ih a 0 (Nat.zero_le a)]
      omega
    · simp only [List.foldl_cons, if_true, runTally]
      rw [ih (max a (t + 1)) (t + 1) (Nat.le_max_right _ _)]
      have := le_runTally xs (t + 1)
      omega

theorem runTally_replicate (k : ℕ) : ∀ t u,
    runTally t (List.replicate k true ++ u) = runTally (t + k) u := by
  induction k with
  | zero => intro t u; simp [List.replicate]
  | succ k ih =>
    intro t u
    simp only [List.replicate_succ, List.cons_append, List.append_eq, runTally]
    rw [ih]
    have : t + 1 + k = t + (k + 1) := by omega
    rw [this]

theorem runTally_ge_of_decomp (k : ℕ) (u : List Bool) : ∀ (s : List Bool) (t : ℕ),
    k ≤ runTally t (s ++ List.replicate k true ++ u) := by
  intro s
  induction s with
  | nil =>
    intro t
    rw [List.nil_append, runTally_replicate]
    exact Nat.le_trans (Nat.le_add_left _ _) (le_runTally u (t + k))
  | cons b xs ih =>
    intro t
    cases b
    · simp only [List.cons_append, runTally]
      exact Nat.le_trans (ih 0) (Nat.le_max_right _ _)
    · simp only [List.cons_append, runTally]
      exact ih (t + 1)

theorem runTally_decomp (l : List Bool) : ∀ t, ∃ s u,
    List.replicate t true ++ l = s ++ List.replicate (runTally t l) true ++ u := by
  induction l with
  | nil => intro t; exact ⟨[], [], by simp [runTally]⟩
  | cons b xs ih =>
    intro t
    cases b
    · rcases Nat.le_total (runTally 0 xs) t with h | h
      · refine ⟨[], false :: xs, ?_⟩
        simp [runTally, Nat.max_eq_left h]
      · obtain ⟨s, u, hsu⟩ := ih 0
        simp only [List.replicate_zero, List.nil_append] at hsu
        refine ⟨List.replicate t true ++ [false] ++ s, u, ?_⟩
        simp only [runTally, Nat.max_eq_right h]
        conv_lhs => rw [hsu]
        simp [List.append_assoc]
    · obtain ⟨s, u, hsu⟩ := ih (t + 1)
      refine ⟨s, u, ?_⟩
      have : List.replicate t true ++ (true :: xs) = List.replicate (t + 1) true ++ xs := by
        rw [List.replicate_succ', List.append_assoc, List.singleton_append]
      simp only [runTally]
      rw [this, hsu]

/-- Claim C7: the longest streak reported by get_habit_stats equals the
maximum run length of adjacent completed entries in the date-sorted entry
sequence (calendar gaps between adjacent entries are irrelevant: the
characterization mentions only the sorted completion sequence), and the
date-sorted completion pattern [T,T,T,F,T,T] yields longest streak 3. -/
theorem c7_longest_streak (hid : ℕ) (hname : String)
    (entries : List HEntry) (today : ℤ) :
    (∃ s u, (sortByDate entries).map (fun en => en.completed) =
        s ++ List.replicate ((habitStats hid hname entries today).longest_streak) true ++ u) ∧
    (∀ k s u, (sortByDate entries).map (fun en => en.completed) =
        s ++ List.replicate k true ++ u →
        k ≤ (habitStats hid hname entries today).longest_streak) ∧
    (habitStats 2 "h" [⟨1, true⟩, ⟨2, true⟩, ⟨3, true⟩, ⟨4, false⟩, ⟨5, true⟩,
        ⟨6, true⟩] 6).longest_streak = 3 := by
  have hL : (habitStats hid hname entries today).longest_streak =
      longestStreakFold ((sortByDate entries).map (fun en => en.completed)) := by
    by_cases h : entries.isEmpty
    · have he : entries = [] := List.isEmpty_iff.1 h
      subst he
      rfl
    · simp only [habitStats, h, if_false]
      rfl
  have hfold : ∀ l : List Bool, longestStreakFold l = runTally 0 l := by
    intro l
    unfold longestStreakFold
    rw [foldl_streak l 0 0 (Nat.le_refl 0)]
    exact Nat.zero_max _
  rw [hL, hfold]
  refine ⟨?_, ?_, by decide⟩
  · obtain ⟨s, u, hsu⟩ := runTally_decomp ((sortByDate entries).map (fun en => en.completed)) 0
    simp only [List.replicate_zero, List.nil_append] at hsu
    exact ⟨s, u, hsu⟩
  · intro k s u hdecomp
    rw [hdecomp]
    exact runTally_ge_of_decomp k u s 0

/-- Witness for c7_longest_streak: the lower-bound conjunct applied to the
concrete [T,T,T,F,T,T] history, whose first three sorted entries form a
completed run of length 3. -/
theorem c7_longest_streak_witness :
    3 ≤ (habitStats 1 "h" [⟨1, true⟩, ⟨2, true⟩, ⟨3, true⟩, ⟨4, false⟩, ⟨5, true⟩,
        ⟨6, true⟩] 6).longest_streak :=
  (c7_longest_streak 1 "h" [⟨1, true⟩, ⟨2, true⟩, ⟨3, true⟩, ⟨4, false⟩, ⟨5, true⟩,
      ⟨6, true⟩] 6).2.1 3 [] [false, true, true] (by decide)

theorem nunique_le_one_of_all_eq {l : List ℚ} (a : ℚ) (h : ∀ x ∈ l, x = a) :
    nunique l ≤ 1 := by
  unfold nunique
  rcases hd : l.dedup with _ | ⟨x, t⟩
  · simp
  · rcases ht : t with _ | ⟨y, t'⟩
    · simp
    · exfalso
      have hnodup : l.dedup.Nodup := l.nodup_dedup
      rw [hd, ht] at hnodup
      have hx : x ∈ l.dedup := by rw [hd]; exact List.mem_cons_self _ _
      have hy : y ∈ l.dedup := by
        rw [hd, ht]; exact List.mem_cons_of_mem _ (List.mem_cons_self _ _)
      have hx' : x = a := h x (List.mem_dedup.1 hx)
      have hy' : y = a := h y (List.mem_dedup.1 hy)
      exact (List.nodup_cons.1 hnodup).1
        (by rw [hx', ← hy']; exact List.mem_cons_self _ _)

theorem lagSlotEval_nil_metric (pear : List ℚ → List ℚ → ℚ × ℚ)
    (fdf : List (ℤ × ℚ)) (lag : ℤ) : lagSlotEval pear [] fdf lag = none := rfl

theorem lagSlotEval_nil_factor (pear : List ℚ → List ℚ → ℚ × ℚ)
    (mdf : List (ℤ × ℚ)) (lag : ℤ) : lagSlotEval pear mdf [] lag = none := by
  have hzero : ∀ x ∈ (alignLag lag mdf []).map (fun r => r.2.2), x = 0 := by
    intro x hx
    simp only [alignLag, shiftDates, List.map_nil, leftMergeFill, List.filter_nil,
      List.mem_map, List.mem_flatMap, List.mem_singleton] at hx
    obtain ⟨r, ⟨dv, _, hr⟩, hx⟩ := hx
    subst hr
    exact hx.symm
  have hnu : nunique ((alignLag lag mdf []).map (fun r => r.2.2)) ≤ 1 :=
    nunique_le_one_of_all_eq 0 hzero
  have hcond : ¬ ((5 ≤ (alignLag lag mdf []).length &&
      (2 ≤ nunique ((alignLag lag mdf []).map (fun r => r.2.2)) &&
       2 ≤ nunique ((alignLag lag mdf []).map (fun r => r.2.1)))) = true) := by
    simp only [Bool.and_eq_true, decide_eq_true_eq]
    rintro ⟨-, h2, -⟩
    omega
  simp only [lagSlotEval]
  rw [if_neg (by simpa [Bool.and_assoc] using hcond)]

theorem innerMergePoints_nil_left (fdf : List (ℤ × ℚ)) :
    innerMergePoints [] fdf = [] := rfl

theorem innerMergePoints_nil_right (mdf : List (ℤ × ℚ)) :
    innerMergePoints mdf [] = [] := by
  induction mdf with
  | nil => rfl
  | cons dv rest ih => simp [innerMergePoints, List.flatMap_cons]

/-- Claim C9: the lag-profile response carries the three lag slots computed
at lags 0, 1, 2 with minimum-sample threshold 5 (each `none` when its guard
trips) together with the inner-join data points; an empty factor history or
an empty (non-null) metric history short-circuits to three null slots and an
empty data-point list, with no failure; and any aligned table with fewer
than 5 rows yields a null slot. -/
theorem c9_lag_profile (pear : List ℚ → List ℚ → ℚ × ℚ)
    (wentries : List WellbeingEntry) (fentries : List FactorEntry)
    (mname : String) (s e : Option ℤ)
    (wb : List WellbeingEntry) (fes : List FactorEntry)
    (md mdf fdf : List (ℤ × ℚ))
    (hwb : wb = filterWellbeing s e wentries)
    (hfes : fes = fentries.filter (fun en => rangeOK s e en.date))
    (hmd : md = wb.filterMap (fun en => (getMetric en mname).map (fun v => (en.date, v))))
    (hmdf : mdf = groupMeanByDate md) (hfdf : fdf = factorDF fes) :
    ((lagProfile pear wentries fentries mname s e).same_day = lagSlotEval pear mdf fdf 0 ∧
     (lagProfile pear wentries fentries mname s e).next_day = lagSlotEval pear mdf fdf 1 ∧
     (lagProfile pear wentries fentries mname s e).two_days = lagSlotEval pear mdf fdf 2 ∧
     (lagProfile pear wentries fentries mname s e).data_points = innerMergePoints mdf fdf) ∧
    (fes = [] ∨ md = [] → lagProfile pear wentries fentries mname s e = ⟨none, none, none, []⟩) ∧
    (∀ lag : ℤ, (alignLag lag mdf fdf).length < 5 →
       lagSlotEval pear mdf fdf lag = none) := by
  subst hmdf hmd hfdf hfes hwb
  refine ⟨?_, ?_, ?_⟩
  · simp only [lagProfile]
    split_ifs with g1 g2
    · rw [Bool.or_eq_true] at g1
      rcases g1 with gw | gf
      · have hwnil : filterWellbeing s e wentries = [] := List.isEmpty_iff.1 gw
        rw [hwnil]
        exact ⟨rfl, rfl, rfl, rfl⟩
      · have hfnil : fentries.filter (fun en => rangeOK s e en.date) = [] :=
          List.isEmpty_iff.1 gf
        rw [hfnil]
        exact ⟨(lagSlotEval_nil_factor pear _ 0).symm,
               (lagSlotEval_nil_factor pear _ 1).symm,
               (lagSlotEval_nil_factor pear _ 2).symm,
               (innerMergePoints_nil_right _).symm⟩
    · have hmnil : (filterWellbeing s e wentries).filterMap
          (fun en => (getMetric en mname).map (fun v => (en.date, v))) = [] :=
        List.isEmpty_iff.1 g2
      rw [hmnil]
      exact ⟨rfl, rfl, rfl, rfl⟩
    · exact ⟨rfl, rfl, rfl, rfl⟩
  · intro h
    simp only [lagProfile]
    split_ifs with g1 g2
    · rfl
    · rfl
    · exfalso
      rcases h with h | h
      · simp [h] at g1
      · simp [h] at g2
  · intro lag hlen
    simp only [lagSlotEval]
    split_ifs with g
    · exfalso
      simp only [Bool.and_eq_true, decide_eq_true_eq] at g
      omega
    · rfl

/-- Witness for c9_lag_profile: with an empty factor history, the endpoint
returns three null slots and no data points. -/
theorem c9_lag_profile_witness :
    lagProfile (fun _ _ => ((1 : ℚ), (1 : ℚ)))
        [⟨1, 3, none, none, none, none, none, none, none, none, none⟩]
        [] "mood_score" none none = ⟨none, none, none, []⟩ :=
  (c9_lag_profile (fun _ _ => ((1 : ℚ), (1 : ℚ)))
      [⟨1, 3, none, none, none, none, none, none, none, none, none⟩]
      [] "mood_score" none none _ _ _ _ _ rfl rfl rfl rfl rfl).2.1 (Or.inl rfl)

/-- Claim C5 (amended): in the sweep's by-metric grouping every emitted group
is sorted by descending absolute correlation and is a permutation of ALL the
collected results for that metric — no top-20 (or any) cap is applied, even
when the request is scoped to a single metric. -/
theorem c5_amended_by_metric_sorted (pear : List ℚ → List ℚ → ℚ × ℚ)
    (factors : List LifestyleFactor) (fentries : List FactorEntry)
    (wentries : List WellbeingEntry) (s e : Option ℤ) (minSamples : ℕ)
    (metric : Option String) :
    ∀ summ ∈ (multiMetric pear factors fentries wentries s e minSamples metric).1,
      summ.correlations.Sorted absDescOrder ∧
      summ.correlations.Perm
        ((sweepAllCorrelations pear factors fentries wentries s e minSamples metric).filter
          (fun c => c.metric_name == summ.metric_name)) := by
  intro summ hmem
  unfold multiMetric at hmem
  split_ifs at hmem
  · exact absurd hmem (List.not_mem_nil _)
  · exact absurd hmem (List.not_mem_nil _)
  · unfold byMetricGroups at hmem
    obtain ⟨p, hp, heq⟩ := List.mem_filterMap.1 hmem
    dsimp only at heq
    split_ifs at heq with h
    all_goals first
      | exact Option.noConfusion heq
      | (have hrec := Option.some.inj heq
         cases hrec
         exact ⟨List.sorted_insertionSort absDescOrder _,
                List.perm_insertionSort absDescOrder _⟩)

/-- Witness for c5_amended_by_metric_sorted on a one-factor snapshot whose
sweep emits a single mood_score result. -/
theorem c5_amended_by_metric_sorted_witness :
    ([(⟨"f", 1, "mood_score", 1 / 2, 1 / 100, true, 3⟩ : CorrelationResult)]).Sorted
        absDescOrder ∧
    [(⟨"f", 1, "mood_score", 1 / 2, 1 / 100, true, 3⟩ : CorrelationResult)].Perm
      ((sweepAllCorrelations (fun _ _ => ((1 : ℚ) / 2, (1 : ℚ) / 100)) [⟨1, "f"⟩]
          [⟨1, 1, true⟩]
          [⟨1, 1, none, none, none, none, none, none, none, none, none⟩,
           ⟨2, 2, none, none, none, none, none, none, none, none, none⟩,
           ⟨3, 3, none, none, none, none, none, none, none, none, none⟩]
          none none 3 none).filter (fun c => c.metric_name == "mood_score")) :=
  c5_amended_by_metric_sorted (fun _ _ => ((1 : ℚ) / 2, (1 : ℚ) / 100)) [⟨1, "f"⟩]
    [⟨1, 1, true⟩]
    [⟨1, 1, none, none, none, none, none, none, none, none, none⟩,
     ⟨2, 2, none, none, none, none, none, none, none, none, none⟩,
     ⟨3, 3, none, none, none, none, none, none, none, none, none⟩]
    none none 3 none
    ⟨"mood_score", "Mood Score", [⟨"f", 1, "mood_score", 1 / 2, 1 / 100, true, 3⟩]⟩
    (by decide)

/-- Counterexample to claim C5 as stated: a request scoped to the single
metric mood_score over 21 factors, each with an evaluable correlation,
returns a mood_score group with 21 entries — more than the claimed cap
of 20. -/
theorem c5_counterexample :
    ((multiMetric (fun _ _ => ((1 : ℚ) / 2, (1 : ℚ) / 100))
        ((List.range 21).map (fun i => ⟨i + 1, "f"⟩))
        ((List.range 21).map (fun i => ⟨i + 1, 1, true⟩))
        [⟨1, 1, none, none, none, none, none, none, none, none, none⟩,
         ⟨2, 2, none, none, none, none, none, none, none, none, none⟩,
         ⟨3, 3, none, none, none, none, none, none, none, none, none⟩]
        none none 3 (some "mood_score")).1.map
      (fun summ => (summ.metric_name, summ.correlations.length))) =
      [("mood_score", 21)] := by
  decide

theorem factorMetricResult_name (pear : List ℚ → List ℚ → ℚ × ℚ) (ms : ℕ)
    (f : LifestyleFactor) (fes : List FactorEntry) (mn : String)
    (mdf : List (ℤ × ℚ)) (r : CorrelationResult)
    (h : factorMetricResult pear ms f fes mn mdf = some r) : r.metric_name = mn := by
  unfold factorMetricResult evaluateCorrelation at h
  dsimp only at h
  split_ifs at h
  all_goals first
    | exact Option.noConfusion h
    | (cases Option.some.inj h; rfl)

theorem filterMap_no_mood (pear : List ℚ → List ℚ → ℚ × ℚ) (ms : ℕ)
    (f : LifestyleFactor) (fes : List FactorEntry)
    (rest : List (String × List (ℤ × ℚ)))
    (hrest : ∀ q ∈ rest, q.1 ≠ "mood_score") :
    (rest.filterMap (fun p => factorMetricResult pear ms f fes p.1 p.2)).filter
      (fun c => c.metric_name == "mood_score") = [] := by
  refine List.filter_eq_nil_iff.2 ?_
  intro c hc
  obtain ⟨q, hq, hsome⟩ := List.mem_filterMap.1 hc
  have hname := factorMetricResult_name pear ms f fes q.1 q.2 c hsome
  simp [hname, hrest q hq]

theorem filter_mood_factor (pear : List ℚ → List ℚ → ℚ × ℚ) (ms : ℕ)
    (f : LifestyleFactor) (fes : List FactorEntry) (mdf0 : List (ℤ × ℚ))
    (rest : List (String × List (ℤ × ℚ)))
    (hrest : ∀ q ∈ rest, q.1 ≠ "mood_score") :
    ((("mood_score", mdf0) :: rest).filterMap
        (fun p => factorMetricResult pear ms f fes p.1 p.2)).filter
      (fun c => c.metric_name == "mood_score") =
    (factorMetricResult pear ms f fes "mood_score" mdf0).toList := by
  rw [List.filterMap_cons]
  cases hr : factorMetricResult pear ms f fes "mood_score" mdf0 with
  | none => simp [filterMap_no_mood pear ms f fes rest hrest]
  | some r =>
    have hname := factorMetricResult_name pear ms f fes "mood_score" mdf0 r hr
    simp [List.filter_cons, hname, filterMap_no_mood pear ms f fes rest hrest]

theorem flatten_map_toList {α β : Type} (l : List α) (g : α → Option β) :
    (l.map (fun a => (g a).toList)).flatten = l.filterMap g := by
  induction l with
  | nil => rfl
  | cons a t ih =>
    rw [List.map_cons, List.flatten_cons, List.filterMap_cons]
    cases g a <;> simp [ih]

theorem moodData_eq_map (wb : List WellbeingEntry) :
    wb.filterMap (fun en => (getMetric en "mood_score").map (fun v => (en.date, v))) =
      wb.map (fun en => (en.date, en.mood_score)) := by
  induction wb with
  | nil => rfl
  | cons en t ih =>
    have h : getMetric en "mood_score" = some en.mood_score := rfl
    rw [List.filterMap_cons, h]
    simp [ih]

theorem metricDFs_names (wb : List WellbeingEntry) (mta : List (String × String)) :
    ∀ p ∈ metricDFs wb mta, p.1 ∈ mta.map Prod.fst := by
  intro p hp
  obtain ⟨q, hq, hsome⟩ := List.mem_filterMap.1 hp
  dsimp only at hsome
  split_ifs at hsome with h
  all_goals first
    | exact Option.noConfusion hsome
    | (cases Option.some.inj hsome
       exact List.mem_map.2 ⟨q, hq, rfl⟩)

theorem byMetricGroups_names (mta : List (String × String))
    (acs : List CorrelationResult) :
    ∀ summ ∈ byMetricGroups mta acs, summ.metric_name ∈ mta.map Prod.fst := by
  intro summ hmem
  obtain ⟨q, hq, hsome⟩ := List.mem_filterMap.1 hmem
  dsimp only at hsome
  split_ifs at hsome with h
  all_goals first
    | exact Option.noConfusion hsome
    | (cases Option.some.inj hsome
       exact List.mem_map.2 ⟨q, hq, rfl⟩)

theorem metricDFs_cons_mood (wb : List WellbeingEntry) (hwb : wb ≠ []) :
    metricDFs wb WELLBEING_METRICS =
      ("mood_score", moodDF wb) :: metricDFs wb WELLBEING_METRICS.tail := by
  have hstep : WELLBEING_METRICS = ("mood_score", "Mood Score") :: WELLBEING_METRICS.tail := rfl
  conv_lhs => rw [hstep]
  unfold metricDFs
  rw [List.filterMap_cons]
  dsimp only
  rw [moodData_eq_map]
  have hne : (wb.map (fun en => (en.date, en.mood_score))).isEmpty = false := by
    cases wb with
    | nil => exact absurd rfl hwb
    | cons a t => rfl
  rw [hne]
  simp only [Bool.false_eq_true, if_false]
  rfl

theorem tail_names_ne_mood (wb : List WellbeingEntry) :
    ∀ q ∈ metricDFs wb WELLBEING_METRICS.tail, q.1 ≠ "mood_score" := by
  intro q hq
  have hmem := metricDFs_names wb WELLBEING_METRICS.tail q hq
  have : "mood_score" ∉ (WELLBEING_METRICS.tail).map Prod.fst := by decide
  intro hcontra
  rw [hcontra] at hmem
  exact this hmem

theorem sweep_filter_mood (pear : List ℚ → List ℚ → ℚ × ℚ)
    (factors : List LifestyleFactor) (fentries : List FactorEntry)
    (wentries : List WellbeingEntry) (s e : Option ℤ) (ms : ℕ)
    (hwb : filterWellbeing s e wentries ≠ []) :
    (sweepAllCorrelations pear factors fentries wentries s e ms none).filter
        (fun c => c.metric_name == "mood_score") =
      factors.filterMap (fun f =>
        if (entriesOfFactor fentries s e f.id).isEmpty then none
        else factorMetricResult pear ms f (entriesOfFactor fentries s e f.id)
          "mood_score" (moodDF (filterWellbeing s e wentries))) := by
  unfold sweepAllCorrelations
  dsimp only
  rw [show metricsToAnalyze none = WELLBEING_METRICS from rfl]
  rw [metricDFs_cons_mood _ hwb]
  rw [List.filter_flatten, List.map_map]
  rw [← flatten_map_toList factors (fun f =>
    if (entriesOfFactor fentries s e f.id).isEmpty then none
    else factorMetricResult pear ms f (entriesOfFactor fentries s e f.id)
      "mood_score" (moodDF (filterWellbeing s e wentries)))]
  congr 1
  refine List.map_congr_left ?_
  intro f _
  by_cases hfe : (entriesOfFactor fentries s e f.id).isEmpty
  · simp only [Function.comp_apply]
    rw [if_pos hfe, if_pos hfe]
    rfl
  · simp only [hfe, Bool.false_eq_true, if_false, Function.comp_apply]
    exact filter_mood_factor pear ms f (entriesOfFactor fentries s e f.id)
      (moodDF (filterWellbeing s e wentries))
      (metricDFs (filterWellbeing s e wentries) WELLBEING_METRICS.tail)
      (tail_names_ne_mood (filterWellbeing s e wentries))

theorem byMetricGroups_cons (mn disp : String) (tl : List (String × String))
    (acs : List CorrelationResult) :
    byMetricGroups ((mn, disp) :: tl) acs =
      if (sortByAbsDesc (acs.filter (fun c => c.metric_name == mn))).isEmpty then
        byMetricGroups tl acs
      else ⟨mn, disp, sortByAbsDesc (acs.filter (fun c => c.metric_name == mn))⟩ ::
        byMetricGroups tl acs := by
  unfold byMetricGroups
  rw [List.filterMap_cons]
  dsimp only
  by_cases h : (sortByAbsDesc (acs.filter (fun c => c.metric_name == mn))).isEmpty
  · rw [if_pos h, if_pos h]
  · rw [if_neg h, if_neg h]

/-- Claim C10: on every storage snapshot and for identical start, end and
minimum-sample parameters, the legacy mood-only endpoint returns exactly the
list of results that the multi-metric sweep's by-metric output carries in
its mood_score group (the empty list when that group is absent): same
factors, same rounded numbers, same descending-absolute-correlation order. -/
theorem c10_legacy_refines_sweep (pear : List ℚ → List ℚ → ℚ × ℚ)
    (factors : List LifestyleFactor) (fentries : List FactorEntry)
    (wentries : List WellbeingEntry) (s e : Option ℤ) (ms : ℕ) :
    legacyCorrelations pear factors fentries wentries s e ms =
      (((multiMetric pear factors fentries wentries s e ms none).1.find?
          (fun summ => summ.metric_name == "mood_score")).map
        (fun summ => summ.correlations)).getD [] := by
  by_cases hf : factors.isEmpty
  · simp [legacyCorrelations, multiMetric, hf]
  by_cases hw : (filterWellbeing s e wentries).isEmpty
  · simp [legacyCorrelations, multiMetric, hf, hw]
  have hwb : filterWellbeing s e wentries ≠ [] := by
    intro h
    rw [h] at hw
    exact hw rfl
  unfold legacyCorrelations multiMetric
  simp only [if_neg hf, if_neg hw]
  rw [← sweep_filter_mood pear factors fentries wentries s e ms hwb]
  rw [show metricsToAnalyze none = WELLBEING_METRICS from rfl]
  rw [show WELLBEING_METRICS =
    ("mood_score", "Mood Score") :: WELLBEING_METRICS.tail from rfl]
  rw [byMetricGroups_cons]
  by_cases hmc : (sortByAbsDesc ((sweepAllCorrelations pear factors fentries wentries
      s e ms none).filter (fun c => c.metric_name == "mood_score"))).isEmpty
  · rw [if_pos hmc]
    have hnone : (byMetricGroups WELLBEING_METRICS.tail
        (sweepAllCorrelations pear factors fentries wentries s e ms none)).find?
          (fun summ => summ.metric_name == "mood_score") = none := by
      refine List.find?_eq_none.2 ?_
      intro summ hs
      have hmem := byMetricGroups_names WELLBEING_METRICS.tail _ summ hs
      have hnm : "mood_score" ∉ (WELLBEING_METRICS.tail).map Prod.fst := by decide
      simp only [beq_iff_eq]
      intro hcon
      rw [hcon] at hmem
      exact hnm hmem
    rw [hnone]
    rw [List.isEmpty_iff.1 hmc]
    rfl
  · rw [if_neg hmc]
    rw [List.find?_cons_of_pos _ rfl]
    rfl
